import Mathlib

/-!
# Verification of the pyarduboy audio driver layer

A shallow embedding of the audio drivers of the `pyarduboy` repository
(`src/drivers/audio/pyaudio.py`, `src/drivers/audio/alsa.py`,
`src/drivers/audio/pygame_mixer.py`), together with proofs of the
specified properties of the bounded frame queue, the sample-format
conversions and the driver lifecycle.

Bytes are modelled as `Nat` (values below 256), encoded audio frames as
`List Nat`, the deque `PyAudioDriver._audio_buffer` as a `List (List Nat)`
whose head is the front (oldest) element, int16 samples as `Int`, and
float32 samples as `ℚ` (the concrete values appearing in the claims are
exactly representable, so rational arithmetic agrees with float32
arithmetic on them).
-/

namespace PyArduboy

/-! ## The PyAudio frame queue (`pyaudio.py`)

State shared between `PyAudioDriver.play_samples` (producer) and
`PyAudioDriver._audio_callback` (consumer): the byte-block deque
`_audio_buffer` and the `_underrun_count` statistic, accessed under
`_buffer_lock`. -/

/-- The queue state touched by `_audio_callback`: the frame deque
`_audio_buffer` (head = front) and the `_underrun_count` counter. -/
structure QState where
  buffer : List (List Nat)
  underrun_count : Nat
  deriving Repr, DecidableEq

/-- `max_buffer_items = 15` from `PyAudioDriver.play_samples`. -/
def max_buffer_items : Nat := 15

/-- The queue mutation of `PyAudioDriver.play_samples` (lines 191-200):
if the deque holds fewer than `max_buffer_items` frames, append the new
frame; otherwise `popleft()` the oldest frame first, then append. -/
def pushFrame (frame : List Nat) (buffer : List (List Nat)) : List (List Nat) :=
  if buffer.length < max_buffer_items then
    buffer ++ [frame]
  else
    buffer.drop 1 ++ [frame]

/-- The `while len(audio_data) < needed_bytes and self._audio_buffer`
loop of `_audio_callback`: keep `popleft()`-ing chunks into the
accumulator until enough bytes are gathered or the deque is empty.
Returns the accumulated bytes and the remaining deque. -/
def drainLoop (n : Nat) : List Nat → List (List Nat) → List Nat × List (List Nat)
  | acc, [] => (acc, [])
  | acc, c :: rest =>
      if acc.length < n then drainLoop n (acc ++ c) rest else (acc, c :: rest)

/-- The queue-pulling body of `PyAudioDriver._audio_callback`
(lines 74-98), parameterised by the needed byte count: if the deque is
empty, return silence and count an underrun; otherwise drain chunks, and
either truncate (returning the surplus bytes to the front via
`appendleft`) or zero-fill the deficit and count an underrun. -/
def pullBytes (n : Nat) (s : QState) : List Nat × QState :=
  if s.buffer.isEmpty then
    (List.replicate n 0, { s with underrun_count := s.underrun_count + 1 })
  else
    let r := drainLoop n [] s.buffer
    if n ≤ r.1.length then
      let remaining := r.1.drop n
      (r.1.take n,
       { s with buffer := if remaining.isEmpty then r.2 else remaining :: r.2 })
    else
      (r.1 ++ List.replicate (n - r.1.length) 0,
       { s with buffer := r.2, underrun_count := s.underrun_count + 1 })

/-- `bytes_per_sample` from `_audio_callback` line 71:
3 bytes for 24-bit output, 2 bytes for 16-bit. -/
def bytes_per_sample (use_24bit : Bool) : Nat := if use_24bit then 3 else 2

/-- `PyAudioDriver._audio_callback` on the queue state: computes
`needed_bytes = frame_count * channels * bytes_per_sample` and pulls
that many bytes from the deque. -/
def audio_callback (frame_count channels : Nat) (use_24bit : Bool) (s : QState) :
    List Nat × QState :=
  pullBytes (frame_count * channels * bytes_per_sample use_24bit) s

/-! ### Queue lemmas -/

theorem pushFrame_length_le (frame : List Nat) (buffer : List (List Nat))
    (h : buffer.length ≤ max_buffer_items) :
    (pushFrame frame buffer).length ≤ max_buffer_items := by
  simp only [pushFrame, max_buffer_items] at h ⊢
  split <;>
    simp only [List.length_append, List.length_drop, List.length_cons,
      List.length_nil] <;>
    omega

theorem pushFrame_of_lt (frame : List Nat) (buffer : List (List Nat))
    (h : buffer.length < max_buffer_items) :
    pushFrame frame buffer = buffer ++ [frame] := by
  unfold pushFrame
  simp [h]

theorem pushFrame_of_eq (frame : List Nat) (buffer : List (List Nat))
    (h : buffer.length = max_buffer_items) :
    pushFrame frame buffer = buffer.drop 1 ++ [frame] := by
  unfold pushFrame
  simp [h]

/-- Conservation: the drained bytes followed by the bytes still queued
are exactly the accumulator followed by all queued bytes. -/
theorem drainLoop_flatten (n : Nat) (acc : List Nat) (buf : List (List Nat)) :
    (drainLoop n acc buf).1 ++ ((drainLoop n acc buf).2).flatten
      = acc ++ buf.flatten := by
  induction buf generalizing acc with
  | nil => simp [drainLoop]
  | cons c rest ih =>
      unfold drainLoop
      split
      · rw [ih (acc ++ c)]
        simp
      · simp

/-- If enough bytes are queued, the drain loop gathers at least `n`. -/
theorem drainLoop_length_ge (n : Nat) (acc : List Nat) (buf : List (List Nat))
    (h : n ≤ acc.length + buf.flatten.length) :
    n ≤ (drainLoop n acc buf).1.length := by
  induction buf generalizing acc with
  | nil => simp only [drainLoop]; simpa using h
  | cons c rest ih =>
      unfold drainLoop
      split
      · exact ih (acc ++ c) (by simp at h ⊢; omega)
      · dsimp only
        omega

/-- With a deficit, the drain loop empties the whole deque. -/
theorem drainLoop_deficit (n : Nat) (acc : List Nat) (buf : List (List Nat))
    (h : acc.length + buf.flatten.length < n) :
    drainLoop n acc buf = (acc ++ buf.flatten, []) := by
  induction buf generalizing acc with
  | nil => simp [drainLoop]
  | cons c rest ih =>
      unfold drainLoop
      rw [if_pos (by simp at h; omega)]
      rw [ih (acc ++ c) (by simp at h ⊢; omega)]
      simp

/-- The remaining deque is never longer than the input deque. -/
theorem drainLoop_rest_length_le (n : Nat) (acc : List Nat) (buf : List (List Nat)) :
    (drainLoop n acc buf).2.length ≤ buf.length := by
  induction buf generalizing acc with
  | nil => simp [drainLoop]
  | cons c rest ih =>
      unfold drainLoop
      split
      · exact le_trans (ih (acc ++ c)) (by simp)
      · simp

/-- At `n = 0` the drain loop does not run. -/
theorem drainLoop_zero (acc : List Nat) (buf : List (List Nat)) :
    drainLoop 0 acc buf = (acc, buf) := by
  cases buf with
  | nil => simp [drainLoop]
  | cons c rest => simp [drainLoop]

/-- The pull always returns exactly the needed number of bytes. -/
theorem pullBytes_length (n : Nat) (s : QState) :
    (pullBytes n s).1.length = n := by
  unfold pullBytes
  dsimp only
  split
  · simp
  · split
    · simp only [List.length_take]
      omega
    · simp only [List.length_append, List.length_replicate]
      omega

/-- Enough data queued: the pull returns the first `n` bytes of the
queued stream, leaves exactly the rest of the stream queued (surplus of
a split frame returned to the front), and does not count an underrun. -/
theorem pullBytes_enough (n : Nat) (s : QState)
    (hne : s.buffer ≠ []) (h : n ≤ s.buffer.flatten.length) :
    (pullBytes n s).1 = s.buffer.flatten.take n ∧
    (pullBytes n s).2.buffer.flatten = s.buffer.flatten.drop n ∧
    (pullBytes n s).2.underrun_count = s.underrun_count := by
  have hge : n ≤ (drainLoop n [] s.buffer).1.length :=
    drainLoop_length_ge n [] s.buffer (by simpa using h)
  have hflat := drainLoop_flatten n [] s.buffer
  simp only [List.nil_append] at hflat
  unfold pullBytes
  dsimp only
  rw [if_neg (by simpa using hne), if_pos hge]
  refine ⟨?_, ?_, rfl⟩
  · rw [← hflat, List.take_append_of_le_length hge]
  · have hdrop : ((drainLoop n [] s.buffer).1.drop n) ++
        ((drainLoop n [] s.buffer).2).flatten = s.buffer.flatten.drop n := by
      rw [← hflat, List.drop_append_of_le_length hge]
    split
    · rename_i hrem
      rw [List.isEmpty_iff] at hrem
      rw [← hdrop, hrem, List.nil_append]
    · simpa using hdrop

/-- Deficit: the pull returns everything queued padded with zero bytes
up to `n`, empties the deque, and counts exactly one underrun. -/
theorem pullBytes_deficit (n : Nat) (s : QState)
    (h : s.buffer.flatten.length < n) :
    (pullBytes n s).1
      = s.buffer.flatten ++ List.replicate (n - s.buffer.flatten.length) 0 ∧
    (pullBytes n s).2.buffer = [] ∧
    (pullBytes n s).2.underrun_count = s.underrun_count + 1 := by
  unfold pullBytes
  dsimp only
  split
  · rename_i hemp
    rw [List.isEmpty_iff] at hemp
    simp [hemp]
  · have hd := drainLoop_deficit n [] s.buffer (by simpa using h)
    rw [hd]
    simp only [List.nil_append]
    rw [if_neg (by omega)]
    exact ⟨rfl, rfl, rfl⟩

/-- The pull never lengthens the deque. -/
theorem pullBytes_buffer_length_le (n : Nat) (s : QState) :
    (pullBytes n s).2.buffer.length ≤ s.buffer.length := by
  unfold pullBytes
  dsimp only
  split
  · exact le_refl _
  · rename_i hemp
    split
    · rename_i hge
      split
      · exact drainLoop_rest_length_le n [] s.buffer
      · rename_i hrem
        cases hbuf : s.buffer with
        | nil => simp [hbuf] at hemp
        | cons c rest =>
            rcases Nat.eq_zero_or_pos n with hn | hn
            · subst hn
              rw [hbuf, drainLoop_zero] at hrem
              simp at hrem
            · have hle : (drainLoop n [] (c :: rest)).2.length ≤ rest.length := by
                unfold drainLoop
                rw [if_pos (by simpa using hn)]
                exact drainLoop_rest_length_le n ([] ++ c) rest
              dsimp only
              simp only [List.length_cons]
              omega
    · exact drainLoop_rest_length_le n [] s.buffer

/-- Every byte of a deficit pull below the queued-byte boundary comes
from the stream; every byte past it is zero.  In particular a pull from
an empty queue is all zeros. -/
theorem pullBytes_empty (n : Nat) (u : Nat) :
    pullBytes n ⟨[], u⟩ = (List.replicate n 0, ⟨[], u + 1⟩) := by
  simp [pullBytes]

/-- Any sequence of pushes starting within the bound stays within it. -/
theorem pushFrame_foldl_length_le (fs : List (List Nat)) (b : List (List Nat))
    (hb : b.length ≤ max_buffer_items) :
    (fs.foldl (fun acc fr => pushFrame fr acc) b).length ≤ max_buffer_items := by
  induction fs generalizing b with
  | nil => simpa using hb
  | cons f rest ih => exact ih _ (pushFrame_length_le f b hb)

/-! ## Claim theorems: queue invariant, drop-oldest, pull contract -/

/-- C1: Queue bound invariant.  With `max_depth = max_buffer_items = 15`,
every queue-mutating operation preserves `0 ≤ len(queue) ≤ max_depth`
(the lower bound is inherent to `Nat`): a `play_samples` push on a queue
within the bound leaves it within the bound, an `_audio_callback` pull
on a queue within the bound leaves it within the bound, and any sequence
of pushes starting from the empty queue leaves at most `max_depth`
frames after each call. -/
theorem queue_bound_invariant (b : List (List Nat)) (f : List Nat)
    (fc ch : Nat) (b24 : Bool) (s : QState) (fs : List (List Nat))
    (hb : b.length ≤ max_buffer_items) (hs : s.buffer.length ≤ max_buffer_items) :
    (pushFrame f b).length ≤ max_buffer_items ∧
    (audio_callback fc ch b24 s).2.buffer.length ≤ max_buffer_items ∧
    (fs.foldl (fun acc fr => pushFrame fr acc) []).length ≤ max_buffer_items := by
  refine ⟨pushFrame_length_le f b hb, ?_, ?_⟩
  · exact le_trans (pullBytes_buffer_length_le _ s) hs
  · exact pushFrame_foldl_length_le fs [] (by simp)

theorem queue_bound_invariant_witness :
    ([[1]] : List (List Nat)).length ≤ max_buffer_items ∧
    (QState.mk [[2], [3]] 0).buffer.length ≤ max_buffer_items ∧
    ((pushFrame [9] [[1]]).length ≤ max_buffer_items ∧
     (audio_callback 2 2 false (QState.mk [[2], [3]] 0)).2.buffer.length
       ≤ max_buffer_items ∧
     (([[4], [5], [6]] : List (List Nat)).foldl
        (fun acc fr => pushFrame fr acc) []).length ≤ max_buffer_items) :=
  ⟨by decide, by decide,
   queue_bound_invariant [[1]] [9] 2 2 false (QState.mk [[2], [3]] 0)
     [[4], [5], [6]] (by decide) (by decide)⟩

/-- C2: Drop-oldest overflow policy.  A push on a queue below the bound
appends; a push on a full queue first evicts the oldest (front) frame,
then appends; pushing `max_depth + 1 = 16` numbered frames into an
initially empty queue leaves exactly frames `2..16` in push order. -/
theorem drop_oldest_policy (b₁ b₂ : List (List Nat)) (f : List Nat)
    (h₁ : b₁.length < max_buffer_items) (h₂ : b₂.length = max_buffer_items) :
    pushFrame f b₁ = b₁ ++ [f] ∧
    pushFrame f b₂ = b₂.drop 1 ++ [f] ∧
    ((List.range (max_buffer_items + 1)).map (fun i => [i + 1])).foldl
        (fun acc fr => pushFrame fr acc) []
      = (List.range max_buffer_items).map (fun i => [i + 2]) := by
  refine ⟨pushFrame_of_lt f b₁ h₁, pushFrame_of_eq f b₂ h₂, ?_⟩
  decide

theorem drop_oldest_policy_witness :
    ([[1]] : List (List Nat)).length < max_buffer_items ∧
    (List.replicate 15 ([] : List Nat)).length = max_buffer_items ∧
    (pushFrame [7] [[1]] = [[1]] ++ [[7]] ∧
     pushFrame [7] (List.replicate 15 ([] : List Nat))
       = (List.replicate 15 ([] : List Nat)).drop 1 ++ [[7]] ∧
     ((List.range (max_buffer_items + 1)).map (fun i => [i + 1])).foldl
        (fun acc fr => pushFrame fr acc) []
       = (List.range max_buffer_items).map (fun i => [i + 2])) :=
  ⟨by decide, by decide,
   drop_oldest_policy [[1]] (List.replicate 15 []) [7] (by decide) (by decide)⟩

/-- C3: Pull contract.  The callback always returns exactly
`frame_count * channels * bytes_per_sample` bytes; with enough data it
returns the first `n₁` bytes of the queued stream in FIFO order and
requeues the surplus at the front; with a deficit it zero-fills and
counts exactly one underrun; from an empty queue it returns all-zero
bytes and counts exactly one underrun. -/
theorem pull_contract (fc ch u n₁ n₂ : Nat) (b24 : Bool) (s t : QState)
    (hne : s.buffer ≠ []) (h₁ : n₁ ≤ s.buffer.flatten.length)
    (h₂ : t.buffer.flatten.length < n₂) :
    (audio_callback fc ch b24 s).1.length = fc * ch * bytes_per_sample b24 ∧
    audio_callback fc ch b24 ⟨[], u⟩
      = (List.replicate (fc * ch * bytes_per_sample b24) 0, ⟨[], u + 1⟩) ∧
    (pullBytes n₁ s).1 = s.buffer.flatten.take n₁ ∧
    (pullBytes n₁ s).2.buffer.flatten = s.buffer.flatten.drop n₁ ∧
    (pullBytes n₁ s).2.underrun_count = s.underrun_count ∧
    (pullBytes n₂ t).1
      = t.buffer.flatten ++ List.replicate (n₂ - t.buffer.flatten.length) 0 ∧
    (pullBytes n₂ t).2.buffer = [] ∧
    (pullBytes n₂ t).2.underrun_count = t.underrun_count + 1 := by
  obtain ⟨e₁, e₂, e₃⟩ := pullBytes_enough n₁ s hne h₁
  obtain ⟨d₁, d₂, d₃⟩ := pullBytes_deficit n₂ t h₂
  exact ⟨pullBytes_length _ s, pullBytes_empty _ u, e₁, e₂, e₃, d₁, d₂, d₃⟩

theorem pull_contract_witness :
    (QState.mk [[1, 2, 3], [4, 5]] 0).buffer ≠ [] ∧
    4 ≤ (QState.mk [[1, 2, 3], [4, 5]] 0).buffer.flatten.length ∧
    (QState.mk [[6]] 3).buffer.flatten.length < 5 ∧
    ((audio_callback 2 2 false (QState.mk [[1, 2, 3], [4, 5]] 0)).1.length
       = 2 * 2 * bytes_per_sample false ∧
     audio_callback 2 2 false ⟨[], 9⟩
       = (List.replicate (2 * 2 * bytes_per_sample false) 0, ⟨[], 9 + 1⟩) ∧
     (pullBytes 4 (QState.mk [[1, 2, 3], [4, 5]] 0)).1
       = (QState.mk [[1, 2, 3], [4, 5]] 0).buffer.flatten.take 4 ∧
     (pullBytes 4 (QState.mk [[1, 2, 3], [4, 5]] 0)).2.buffer.flatten
       = (QState.mk [[1, 2, 3], [4, 5]] 0).buffer.flatten.drop 4 ∧
     (pullBytes 4 (QState.mk [[1, 2, 3], [4, 5]] 0)).2.underrun_count
       = (QState.mk [[1, 2, 3], [4, 5]] 0).underrun_count ∧
     (pullBytes 5 (QState.mk [[6]] 3)).1
       = (QState.mk [[6]] 3).buffer.flatten
           ++ List.replicate (5 - (QState.mk [[6]] 3).buffer.flatten.length) 0 ∧
     (pullBytes 5 (QState.mk [[6]] 3)).2.buffer = [] ∧
     (pullBytes 5 (QState.mk [[6]] 3)).2.underrun_count
       = (QState.mk [[6]] 3).underrun_count + 1) :=
  ⟨by decide, by decide, by decide,
   pull_contract 2 2 9 4 5 false (QState.mk [[1, 2, 3], [4, 5]] 0)
     (QState.mk [[6]] 3) (by decide) (by decide) (by decide)⟩

/-! ## Interleaved pushes and pulls (ordering guarantee)

A trace semantics for the queue shared between `play_samples` (push) and
`_audio_callback` (pull), used to state the FIFO ordering guarantee. -/

/-- One queue operation: a `play_samples` push of an encoded frame, or
an `_audio_callback` pull of a byte count. -/
inductive AudioOp where
  | push : List Nat → AudioOp
  | pull : Nat → AudioOp
  deriving Repr, DecidableEq

/-- One step of the shared-queue trace, accumulating the byte stream the
callback has returned to the sink so far. -/
def stepOp (p : QState × List Nat) (op : AudioOp) : QState × List Nat :=
  match op with
  | .push f => ({ p.1 with buffer := pushFrame f p.1.buffer }, p.2)
  | .pull n => ((pullBytes n p.1).2, p.2 ++ (pullBytes n p.1).1)

/-- Run a trace from the driver's initial state (empty deque, zero
underruns, nothing output). -/
def runOps (ops : List AudioOp) : QState × List Nat :=
  ops.foldl stepOp (⟨[], 0⟩, [])

/-- The concatenation of all bytes pushed by a trace, in push order. -/
def pushedBytes : List AudioOp → List Nat
  | [] => []
  | .push f :: rest => f ++ pushedBytes rest
  | .pull _ :: rest => pushedBytes rest

/-- A trace is clean when no push overflows (evicting the oldest frame)
and no pull underruns (queue empty or short of the requested bytes). -/
def cleanRun : QState → List AudioOp → Bool
  | _, [] => true
  | s, .push f :: rest =>
      decide (s.buffer.length < max_buffer_items) &&
      cleanRun { s with buffer := pushFrame f s.buffer } rest
  | s, .pull n :: rest =>
      (!s.buffer.isEmpty && decide (n ≤ s.buffer.flatten.length)) &&
      cleanRun (pullBytes n s).2 rest

/-- Invariant of a clean trace: output so far plus bytes still queued is
the initial residue plus everything pushed, and no underrun is counted. -/
theorem cleanRun_invariant (ops : List AudioOp) (s : QState) (out : List Nat)
    (h : cleanRun s ops = true) :
    (ops.foldl stepOp (s, out)).2 ++ (ops.foldl stepOp (s, out)).1.buffer.flatten
      = out ++ s.buffer.flatten ++ pushedBytes ops ∧
    (ops.foldl stepOp (s, out)).1.underrun_count = s.underrun_count := by
  induction ops generalizing s out with
  | nil => simp [pushedBytes]
  | cons op rest ih =>
      cases op with
      | push f =>
          simp only [cleanRun, Bool.and_eq_true, decide_eq_true_eq] at h
          obtain ⟨hlt, hrest⟩ := h
          have := ih { s with buffer := pushFrame f s.buffer } out hrest
          simp only [List.foldl_cons, stepOp] at this ⊢
          rw [this.1, this.2]
          rw [pushFrame_of_lt f s.buffer hlt]
          simp [pushedBytes]
      | pull n =>
          simp only [cleanRun, Bool.and_eq_true, Bool.not_eq_true',
            List.isEmpty_eq_false, decide_eq_true_eq] at h
          obtain ⟨⟨hne, hlen⟩, hrest⟩ := h
          obtain ⟨e₁, e₂, e₃⟩ := pullBytes_enough n s hne hlen
          have := ih (pullBytes n s).2 (out ++ (pullBytes n s).1) hrest
          simp only [List.foldl_cons, stepOp] at this ⊢
          rw [this.1, this.2, e₁, e₂, e₃]
          simp only [pushedBytes]
          rw [List.append_assoc out, List.take_append_drop]
          exact ⟨rfl, trivial⟩

/-- C4: Ordering guarantee.  Along any interleaving of pushes and pulls
with no overflow eviction and no underrun, the byte stream handed to the
sink plus the bytes still queued equals the concatenation of all pushed
frames in push order (no reordering, no duplication, no synthetic
silence: the underrun counter stays 0); hence the output stream is a
prefix of the pushed stream, and equals it once the queue drains. -/
theorem ordering_guarantee (ops : List AudioOp)
    (h : cleanRun ⟨[], 0⟩ ops = true) :
    (runOps ops).2 ++ (runOps ops).1.buffer.flatten = pushedBytes ops ∧
    (runOps ops).1.underrun_count = 0 ∧
    List.IsPrefix (runOps ops).2 (pushedBytes ops) ∧
    ((runOps ops).1.buffer = [] → (runOps ops).2 = pushedBytes ops) := by
  obtain ⟨h₁, h₂⟩ := cleanRun_invariant ops ⟨[], 0⟩ [] h
  simp only [List.nil_append] at h₁
  unfold runOps
  refine ⟨by simpa using h₁, by simpa using h₂, ?_, ?_⟩
  · exact ⟨(ops.foldl stepOp (⟨[], 0⟩, [])).1.buffer.flatten, by simpa using h₁⟩
  · intro hbuf
    rw [hbuf] at h₁
    simpa using h₁

theorem ordering_guarantee_witness :
    cleanRun ⟨[], 0⟩
        [.push [1, 2], .push [3, 4, 5], .pull 3, .pull 2, .push [6]] = true ∧
    ((runOps [.push [1, 2], .push [3, 4, 5], .pull 3, .pull 2, .push [6]]).2
        ++ (runOps [.push [1, 2], .push [3, 4, 5], .pull 3,
              .pull 2, .push [6]]).1.buffer.flatten
      = pushedBytes [.push [1, 2], .push [3, 4, 5], .pull 3,
          .pull 2, .push [6]] ∧
     (runOps [.push [1, 2], .push [3, 4, 5], .pull 3,
         .pull 2, .push [6]]).1.underrun_count = 0 ∧
     List.IsPrefix
       (runOps [.push [1, 2], .push [3, 4, 5], .pull 3, .pull 2, .push [6]]).2
       (pushedBytes [.push [1, 2], .push [3, 4, 5], .pull 3,
          .pull 2, .push [6]]) ∧
     ((runOps [.push [1, 2], .push [3, 4, 5], .pull 3,
          .pull 2, .push [6]]).1.buffer = [] →
       (runOps [.push [1, 2], .push [3, 4, 5], .pull 3, .pull 2, .push [6]]).2
         = pushedBytes [.push [1, 2], .push [3, 4, 5], .pull 3,
             .pull 2, .push [6]])) :=
  ⟨by decide,
   ordering_guarantee [.push [1, 2], .push [3, 4, 5], .pull 3, .pull 2, .push [6]]
     (by decide)⟩

/-! ## Sample-format conversion (`pyaudio.py` lines 181-189,
`alsa.py` lines 157-202)

int16 samples are `Int` values, float32 samples are `ℚ` values (the
inputs the claims test are exactly representable in float32, so the
rational model computes the same results). -/

/-- A numpy sample array as accepted by `play_samples`: a 1-D int16
array, a 2-D int16 array (rows of channel values), or a 1-D float32
array modelled over the rationals. -/
inductive Samples where
  | i16 : List Int → Samples
  | i16m : List (List Int) → Samples
  | f32 : List ℚ → Samples
  deriving Repr, DecidableEq

/-- Python `len(samples)`: the outer length of the array. -/
def pyLen : Samples → Nat
  | .i16 xs => xs.length
  | .i16m xss => xss.length
  | .f32 qs => qs.length

/-- Little-endian two's-complement encoding of one int16 sample, as
`numpy.ndarray.tobytes` emits it. -/
def int16ToLE (x : Int) : List Nat :=
  [(x % 65536).toNat % 256, (x % 65536).toNat / 256]

/-- `tobytes()` of an int16 sample block. -/
def int16BlockBytes (xs : List Int) : List Nat := (xs.map int16ToLE).flatten

/-- Reference little-endian two's-complement 16-bit decoder (inverse of
`tobytes` on int16 data). -/
def unpackLE16 : List Nat → List Int
  | b0 :: b1 :: rest =>
      (if b0 + 256 * b1 < 32768 then ((b0 + 256 * b1 : Nat) : Int)
       else ((b0 + 256 * b1 : Nat) : Int) - 65536) :: unpackLE16 rest
  | _ => []

/-- Truncation toward zero: the rounding `numpy.astype` applies when
casting float to a signed integer type. -/
def ratTrunc (q : ℚ) : Int := if 0 ≤ q then ⌊q⌋ else -(⌊-q⌋)

/-- Wrap an integer into the int16 range modulo 2^16, modelling the
C-cast overflow of `np.asarray(samples, dtype=np.int16)` on
out-of-range float input. -/
def wrap16 (v : Int) : Int :=
  if v % 65536 < 32768 then v % 65536 else v % 65536 - 65536

/-- The conversion step of `PyAudioDriver.play_samples` (lines 181-189):
int16 input is used as-is, other dtypes are cast element-wise by
`np.asarray(samples, dtype=np.int16)` (a truncating, wrapping cast with
no clamping and no rescaling), then `tobytes()` is taken (row-major for
2-D input). -/
def pyaudioConvert : Samples → List Nat
  | .i16 xs => int16BlockBytes xs
  | .i16m xss => int16BlockBytes xss.flatten
  | .f32 qs => int16BlockBytes (qs.map (fun q => wrap16 (ratTrunc q)))

/-- `np.clip(x, lo, hi)` on one value. -/
def npClip (lo hi x : ℚ) : ℚ := max lo (min hi x)

/-- Steps 1-2 of `AlsaAudioDriver.play_samples` on one float sample:
multiply by the volume when `self.volume != 1.0`, then clip to
`[-1.0, 1.0]`. -/
def alsaFloat (volume : ℚ) (q : ℚ) : ℚ :=
  npClip (-1) 1 (if volume ≠ 1 then q * volume else q)

/-- Steps 1-2 for an int16 input sample: first normalized by
`samples.astype(np.float32) / 32768.0`. -/
def alsaI16Float (volume : ℚ) (x : Int) : ℚ := alsaFloat volume ((x : ℚ) / 32768)

/-- 16-bit branch of step 4: `(samples_float * 32767).astype(np.int16)`. -/
def alsaTo16 (f : ℚ) : Int := ratTrunc (f * 32767)

/-- 24-bit branch of step 4: `(samples_float * 8388607.0).astype(np.int32)`. -/
def alsaTo24 (f : ℚ) : Int := ratTrunc (f * 8388607)

/-- The manual 3-byte little-endian packing of the 24-bit branch
(lines 189-196): a negative sample is first reduced to 24-bit
two's complement (`sample & 0xFFFFFF`), then the bytes are
`sample & 0xFF`, `(sample >> 8) & 0xFF`, `(sample >> 16) & 0xFF`.
For `0 ≤ v < 2^23` the reduction modulo 2^24 leaves `v` unchanged, so a
single modulo covers both source branches. -/
def pack24 (v : Int) : List Nat :=
  [(v % 16777216).toNat % 256,
   (v % 16777216).toNat / 256 % 256,
   (v % 16777216).toNat / 65536 % 256]

/-- Reference little-endian two's-complement 24-bit unpacker (the
decoder named by the spec's testable property; the repository itself
has no decoder). -/
def unpack24 : List Nat → Int
  | [b0, b1, b2] =>
      if b0 + 256 * b1 + 65536 * b2 < 8388608 then
        ((b0 + 256 * b1 + 65536 * b2 : Nat) : Int)
      else ((b0 + 256 * b1 + 65536 * b2 : Nat) : Int) - 16777216
  | _ => 0

/-- The whole 16-bit conversion of `AlsaAudioDriver.play_samples` on a
1-D int16 block (steps 1, 2, 4 and `tobytes`). -/
def alsaConvert16 (volume : ℚ) (xs : List Int) : List Nat :=
  int16BlockBytes (xs.map (fun x => alsaTo16 (alsaI16Float volume x)))

/-- The whole 24-bit conversion of `AlsaAudioDriver.play_samples` on a
1-D int16 block (steps 1, 2, 4 and the packing loop). -/
def alsaConvert24 (volume : ℚ) (xs : List Int) : List Nat :=
  ((xs.map (fun x => alsaTo24 (alsaI16Float volume x))).map pack24).flatten

/-! ### Conversion lemmas -/

/-- Decoding the little-endian bytes of an in-range int16 sample
recovers the sample. -/
theorem unpackLE16_int16ToLE (x : Int) (rest : List Nat)
    (h1 : -32768 ≤ x) (h2 : x ≤ 32767) :
    unpackLE16 (int16ToLE x ++ rest)
      = x :: unpackLE16 rest := by
  simp only [int16ToLE, List.cons_append, List.nil_append, unpackLE16]
  congr 1
  split <;> omega

theorem unpackLE16_blockBytes (xs : List Int)
    (h : ∀ x ∈ xs, -32768 ≤ x ∧ x ≤ 32767) :
    unpackLE16 (int16BlockBytes xs) = xs := by
  induction xs with
  | nil => rfl
  | cons x rest ih =>
      have hx := h x (List.mem_cons_self x rest)
      rw [int16BlockBytes, List.map_cons, List.flatten_cons,
        unpackLE16_int16ToLE x _ hx.1 hx.2, ← int16BlockBytes,
        ih (fun y hy => h y (List.mem_cons_of_mem x hy))]

/-- `npClip` is the identity inside the bounds. -/
theorem npClip_eq_self (lo hi x : ℚ) (h1 : lo ≤ x) (h2 : x ≤ hi) :
    npClip lo hi x = x := by
  rw [npClip, min_eq_right h2, max_eq_right h1]

/-- `npClip` output stays inside the bounds. -/
theorem npClip_bounds (lo hi x : ℚ) (h : lo ≤ hi) :
    lo ≤ npClip lo hi x ∧ npClip lo hi x ≤ hi :=
  ⟨le_max_left lo _, max_le h (min_le_left hi x)⟩

/-- Truncation toward zero maps `[-B, B]` into `[-B, B]`. -/
theorem ratTrunc_bounds (q : ℚ) (B : Int) (hB : 0 ≤ B)
    (h1 : -(B : ℚ) ≤ q) (h2 : q ≤ (B : ℚ)) :
    -B ≤ ratTrunc q ∧ ratTrunc q ≤ B := by
  unfold ratTrunc
  split
  · rename_i hq
    constructor
    · have : (0 : Int) ≤ ⌊q⌋ := Int.floor_nonneg.mpr hq
      omega
    · calc ⌊q⌋ ≤ ⌊(B : ℚ)⌋ := Int.floor_le_floor h2
        _ = B := Int.floor_intCast B
  · rename_i hq
    push_neg at hq
    constructor
    · have : ⌊-q⌋ ≤ ⌊(B : ℚ)⌋ := Int.floor_le_floor (by linarith)
      rw [Int.floor_intCast] at this
      omega
    · have : (0 : Int) ≤ ⌊-q⌋ := Int.floor_nonneg.mpr (by linarith)
      omega

/-- Packing then unpacking is the identity on 24-bit two's-complement
range. -/
theorem unpack24_pack24 (v : Int) (h1 : -8388608 ≤ v) (h2 : v < 8388608) :
    unpack24 (pack24 v) = v := by
  simp only [pack24, unpack24]
  split <;> omega

/-- The normalized int16 sample lies in the clip window, so the ALSA
clip is a no-op at unit volume. -/
theorem alsaI16Float_one (x : Int) (h1 : -32768 ≤ x) (h2 : x ≤ 32767) :
    alsaI16Float 1 x = (x : ℚ) / 32768 := by
  rw [alsaI16Float, alsaFloat, if_neg (by simp)]
  refine npClip_eq_self _ _ _ ?_ ?_
  · rw [le_div_iff₀ (by norm_num : (0 : ℚ) < 32768)]
    have : (-32768 : ℚ) ≤ (x : ℚ) := by exact_mod_cast h1
    linarith
  · rw [div_le_one (by norm_num : (0 : ℚ) < 32768)]
    have : (x : ℚ) ≤ 32767 := by exact_mod_cast h2
    linarith

/-- The ALSA float pipeline always lands in `[-1, 1]`. -/
theorem alsaFloat_bounds (volume q : ℚ) :
    -1 ≤ alsaFloat volume q ∧ alsaFloat volume q ≤ 1 :=
  npClip_bounds (-1) 1 _ (by norm_num)

/-! ## Claim theorems: sample conversion -/

/-- C5 counterexample: the claim asserts byte-identical Int16→Int16
passthrough for `play_samples` of both cited drivers, but the ALSA
driver's 16-bit path rescales through float: even at volume 1.0 the
input sample `1` converts to bytes `[0, 0]`, not its own little-endian
bytes `[1, 0]`. -/
theorem int16_passthrough_cex :
    alsaConvert16 1 [1] = [0, 0] ∧
    int16BlockBytes [1] = [1, 0] ∧
    alsaConvert16 1 [1] ≠ int16BlockBytes [1] := by
  have h16 : alsaTo16 (alsaI16Float 1 1) = 0 := by
    rw [alsaI16Float_one 1 (by norm_num) (by norm_num)]
    norm_num [alsaTo16, ratTrunc]
  refine ⟨?_, by decide, ?_⟩
  · simp [alsaConvert16, int16BlockBytes, h16, int16ToLE]
  · simp [alsaConvert16, int16BlockBytes, h16, int16ToLE]

/-- C5 (amended): in the PyAudio driver, `play_samples` converts an
Int16 block (1-D or 2-D) for 16-bit output byte-identically to the
input's little-endian bytes — pure passthrough, no rescaling, no gain;
decoding the produced bytes recovers every in-range sample.  The ALSA
driver's 16-bit path is not a byte-identical passthrough (it rescales
through float, shown at input `[1]`, volume 1.0). -/
theorem int16_passthrough (xs : List Int)
    (h : ∀ x ∈ xs, -32768 ≤ x ∧ x ≤ 32767) :
    pyaudioConvert (Samples.i16 xs) = int16BlockBytes xs ∧
    unpackLE16 (pyaudioConvert (Samples.i16 xs)) = xs ∧
    alsaConvert16 1 [1] ≠ int16BlockBytes [1] := by
  refine ⟨rfl, ?_, ?_⟩
  · exact unpackLE16_blockBytes xs h
  · have h16 : alsaTo16 (alsaI16Float 1 1) = 0 := by
      rw [alsaI16Float_one 1 (by norm_num) (by norm_num)]
      norm_num [alsaTo16, ratTrunc]
    simp [alsaConvert16, int16BlockBytes, h16, int16ToLE]

theorem int16_passthrough_witness :
    (∀ x ∈ ([1000, -1, 32767, -32768] : List Int), -32768 ≤ x ∧ x ≤ 32767) ∧
    (pyaudioConvert (Samples.i16 [1000, -1, 32767, -32768])
       = int16BlockBytes [1000, -1, 32767, -32768] ∧
     unpackLE16 (pyaudioConvert (Samples.i16 [1000, -1, 32767, -32768]))
       = [1000, -1, 32767, -32768] ∧
     alsaConvert16 1 [1] ≠ int16BlockBytes [1]) :=
  ⟨by decide, int16_passthrough [1000, -1, 32767, -32768] (by decide)⟩

/-- C6 counterexample: the claim asserts every out-of-range Float32
sample converts to exactly ±32767, but the ALSA driver applies the
volume factor (default 0.3) before the clip, so at volume 0.3 the
out-of-range sample `2.0` converts to `19660`. -/
theorem float_clamp_cex :
    (1 : ℚ) < 2 ∧
    alsaTo16 (alsaFloat (3 / 10) 2) = 19660 ∧
    alsaTo16 (alsaFloat (3 / 10) 2) ≠ 32767 ∧
    alsaTo16 (alsaFloat (3 / 10) 2) ≠ -32767 := by
  have h : alsaTo16 (alsaFloat (3 / 10) 2) = 19660 := by
    norm_num [alsaTo16, alsaFloat, npClip, ratTrunc]
  exact ⟨by norm_num, h, by rw [h]; decide, by rw [h]; decide⟩

/-- C6 (amended): the ALSA Float32→Int16 conversion computes
`trunc(clip(volume * x, -1, 1) * 32767)`.  At volume 1.0 this is
`clamp(x, -1, 1) * 32767`, so every out-of-range sample converts to
exactly +32767 (positive) or -32767 (negative); at other volumes the
clamp applies to the scaled value, so out-of-range samples can convert
to interior values; for every volume the result stays in
`[-32767, 32767]` and never wraps. -/
theorem float_clamp (qpos qneg q volume : ℚ)
    (hpos : 1 < qpos) (hneg : qneg < -1) :
    alsaTo16 (alsaFloat 1 qpos) = 32767 ∧
    alsaTo16 (alsaFloat 1 qneg) = -32767 ∧
    -32767 ≤ alsaTo16 (alsaFloat volume q) ∧
    alsaTo16 (alsaFloat volume q) ≤ 32767 := by
  refine ⟨?_, ?_, ?_⟩
  · rw [alsaFloat, if_neg (by simp), npClip, min_eq_left (le_of_lt hpos),
      max_eq_right (by norm_num)]
    norm_num [alsaTo16, ratTrunc]
  · rw [alsaFloat, if_neg (by simp),
      npClip, min_eq_right (by linarith), max_eq_left (by linarith)]
    norm_num [alsaTo16, ratTrunc]
  · obtain ⟨hlo, hhi⟩ := alsaFloat_bounds volume q
    have := ratTrunc_bounds (alsaFloat volume q * 32767) 32767 (by norm_num)
      (by push_cast; nlinarith) (by push_cast; nlinarith)
    exact ⟨this.1, this.2⟩

theorem float_clamp_witness :
    (1 : ℚ) < 3 / 2 ∧ (-9 : ℚ) < -1 ∧
    (alsaTo16 (alsaFloat 1 (3 / 2)) = 32767 ∧
     alsaTo16 (alsaFloat 1 (-9)) = -32767 ∧
     -32767 ≤ alsaTo16 (alsaFloat (3 / 10) (1 / 4)) ∧
     alsaTo16 (alsaFloat (3 / 10) (1 / 4)) ≤ 32767) :=
  ⟨by norm_num, by norm_num,
   float_clamp (3 / 2) (-9) (1 / 4) (3 / 10) (by norm_num) (by norm_num)⟩

/-- C7: 24-bit packing.  The ALSA 24-bit conversion at unit volume
scales each int16 sample via `x / 32768.0 * 8388607` (the clip being a
no-op on normalized int16 input) and packs three little-endian bytes
using two's complement for negatives; packing then decoding with the
reference unpacker is the identity on the whole 24-bit range, hence on
every converted sample; in particular the Int16 input `-1` scales to
`-255`, packs to `[0x01, 0xFF, 0xFF]`, and decodes back to `-255`, the
Int16-domain value `-1` scaled. -/
theorem pack24_correct (v x : Int)
    (hv1 : -8388608 ≤ v) (hv2 : v < 8388608)
    (hx1 : -32768 ≤ x) (hx2 : x ≤ 32767) :
    unpack24 (pack24 v) = v ∧
    alsaTo24 (alsaI16Float 1 x) = ratTrunc ((x : ℚ) / 32768 * 8388607) ∧
    unpack24 (pack24 (alsaTo24 (alsaI16Float 1 x)))
      = alsaTo24 (alsaI16Float 1 x) ∧
    alsaTo24 (alsaI16Float 1 (-1)) = -255 ∧
    pack24 (-255) = [1, 255, 255] ∧
    unpack24 [1, 255, 255] = -255 := by
  have hb : -8388607 ≤ alsaTo24 (alsaI16Float 1 x) ∧
      alsaTo24 (alsaI16Float 1 x) ≤ 8388607 := by
    obtain ⟨hlo, hhi⟩ := alsaFloat_bounds 1 ((x : ℚ) / 32768)
    exact ratTrunc_bounds _ 8388607 (by norm_num)
      (by push_cast; rw [alsaI16Float]; nlinarith)
      (by push_cast; rw [alsaI16Float]; nlinarith)
  refine ⟨unpack24_pack24 v hv1 hv2, ?_, ?_, ?_, by decide, by decide⟩
  · rw [alsaI16Float_one x hx1 hx2, alsaTo24]
  · exact unpack24_pack24 _ (by omega) (by omega)
  · rw [alsaI16Float_one (-1) (by norm_num) (by norm_num)]
    norm_num [alsaTo24, ratTrunc]

theorem pack24_correct_witness :
    (-8388608 : Int) ≤ -300 ∧ (-300 : Int) < 8388608 ∧
    (-32768 : Int) ≤ -1 ∧ (-1 : Int) ≤ 32767 ∧
    (unpack24 (pack24 (-300)) = -300 ∧
     alsaTo24 (alsaI16Float 1 (-1)) = ratTrunc ((-1 : ℚ) / 32768 * 8388607) ∧
     unpack24 (pack24 (alsaTo24 (alsaI16Float 1 (-1))))
       = alsaTo24 (alsaI16Float 1 (-1)) ∧
     alsaTo24 (alsaI16Float 1 (-1)) = -255 ∧
     pack24 (-255) = [1, 255, 255] ∧
     unpack24 [1, 255, 255] = -255) :=
  ⟨by decide, by decide, by decide, by decide,
   pack24_correct (-300) (-1) (by decide) (by decide) (by decide) (by decide)⟩

/-! ## Driver lifecycle and error absorption

State-machine embeddings of the three drivers.  Backend objects are
modelled by their `is not None` status; interaction with the backend
(`pyaudio.open`, `pcm.write`, `channel.get_busy`) is an external input,
passed as a boolean parameter.  A runtime per-frame exception inside the
`try` block of `play_samples` is likewise an external event, passed as
the `fail` parameter; the `Except` value of the body makes the raise
explicit and the `match` on it embeds the `except` handler.
`diag_count` counts the diagnostics actually printed (the body of the
`if not hasattr(self, '_error_printed')` block). -/

/-- `PyAudioDriver` instance state. -/
structure PyAudioState where
  running : Bool
  stream : Bool
  pyaudioH : Bool
  sample_rate : Int
  buffer : List (List Nat)
  underrun_count : Nat
  frame_count : Nat
  total_samples : Nat
  error_printed : Bool
  diag_count : Nat
  deriving Repr, DecidableEq

/-- `PyAudioDriver.init` (lines 102-159): an immediate `True` when
already running; otherwise adopt a positive requested rate, fall back to
44100 when still unset, then open the backend (`backend_ok` models
whether `pyaudio.PyAudio()`/`open`/`start_stream` succeed; on failure
the handler closes the freshly created objects and returns `False`). -/
def pyaudio_init (sample_rate : Int) (backend_ok : Bool) (s : PyAudioState) :
    Bool × PyAudioState :=
  if s.running then (true, s)
  else
    let s₁ := if sample_rate > 0 then { s with sample_rate := sample_rate } else s
    let s₂ := if s₁.sample_rate ≤ 0 then { s₁ with sample_rate := 44100 } else s₁
    if backend_ok then
      (true, { s₂ with pyaudioH := true, stream := true, running := true })
    else
      (false, { s₂ with pyaudioH := true })

/-- `PyAudioDriver.close` (lines 224-246): clear `_running`, stop and
drop the stream and the PyAudio instance (exceptions absorbed), clear
the buffer. -/
def pyaudio_close (s : PyAudioState) : PyAudioState :=
  { s with running := false, stream := false, pyaudioH := false, buffer := [] }

/-- The `except` handler of `PyAudioDriver.play_samples`: print a
diagnostic only on the first error of the instance. -/
def pyaudioLogError (s : PyAudioState) : PyAudioState :=
  if s.error_printed then s
  else { s with error_printed := true, diag_count := s.diag_count + 1 }

/-- The `try` body of `PyAudioDriver.play_samples`: convert, push under
the lock, update statistics.  `fail` injects a runtime per-frame
exception at the raise points inside the body. -/
def pyaudio_play_body (b : Samples) (fail : Bool) (s : PyAudioState) :
    Except Unit PyAudioState :=
  if fail then .error ()
  else .ok { s with buffer := pushFrame (pyaudioConvert b) s.buffer,
                    frame_count := s.frame_count + 1,
                    total_samples := s.total_samples + pyLen b }

/-- `PyAudioDriver.play_samples` (lines 161-222) as the `Except` it
leaves scope with: guards first, then the `try`/`except`.  Every branch
is `Except.ok`, which is the no-propagation property. -/
def pyaudio_play_exc (blk : Option Samples) (fail : Bool) (s : PyAudioState) :
    Except Unit PyAudioState :=
  if !s.running || !s.stream then .ok s
  else match blk with
    | none => .ok s
    | some b =>
        if pyLen b = 0 then .ok s
        else match pyaudio_play_body b fail s with
          | .ok t => .ok t
          | .error _ => .ok (pyaudioLogError s)

/-- The state after `PyAudioDriver.play_samples` returns. -/
def pyaudio_play (blk : Option Samples) (fail : Bool) (s : PyAudioState) :
    PyAudioState :=
  match pyaudio_play_exc blk fail s with
  | .ok t => t
  | .error _ => s

/-- `AlsaAudioDriver` instance state; `writes` collects the byte blocks
`pcm.write` accepted. -/
structure AlsaState where
  running : Bool
  pcm : Bool
  volume : ℚ
  channels : Nat
  use_24bit : Bool
  sample_rate : Int
  frame_count : Nat
  total_samples : Nat
  write_errors : Nat
  error_printed : Bool
  diag_count : Nat
  writes : List (List Nat)
  deriving Repr, DecidableEq

/-- Whether the numpy array is 2-D. -/
def isTwoD : Samples → Bool
  | .i16m _ => true
  | _ => false

/-- Steps 1-3 of `AlsaAudioDriver.play_samples`: normalize every sample
to float (int16 divided by 32768, float32 kept), apply volume and clip,
then duplicate mono to stereo (`np.repeat(samples_float, 2)`) when the
input is 1-D and the driver is configured for 2 channels (2-D input is
flattened row-major, as `tobytes` will read it). -/
def alsaFloats (volume : ℚ) (channels : Nat) : Samples → List ℚ
  | .i16 xs =>
      let fs := xs.map (fun x => alsaFloat volume ((x : ℚ) / 32768))
      if channels = 2 then fs.flatMap (fun q => [q, q]) else fs
  | .i16m xss =>
      (xss.map (fun r => r.map (fun x => alsaFloat volume ((x : ℚ) / 32768)))).flatten
  | .f32 qs =>
      let fs := qs.map (alsaFloat volume)
      if channels = 2 then fs.flatMap (fun q => [q, q]) else fs

/-- Step 4 of `AlsaAudioDriver.play_samples`: byte conversion of the
float block at the configured bit depth (3-byte packed 24-bit, or int16
`tobytes`). -/
def alsaData (use24 : Bool) (fs : List ℚ) : List Nat :=
  if use24 then (fs.map (fun f => pack24 (alsaTo24 f))).flatten
  else int16BlockBytes (fs.map alsaTo16)

/-- The `try` body of `AlsaAudioDriver.play_samples` (lines 157-222):
convert, write non-blockingly (`wfail` models the buffer-full
`ALSAAudioError`, absorbed by the inner handler into `_write_errors`),
then update statistics.  The manual 24-bit packing loop raises on a 2-D
array (`if sample < 0` on an array row), modelled as an error. -/
def alsa_play_body (b : Samples) (fail wfail : Bool) (s : AlsaState) :
    Except Unit AlsaState :=
  if fail then .error ()
  else if s.use_24bit && isTwoD b then .error ()
  else
    let data := alsaData s.use_24bit (alsaFloats s.volume s.channels b)
    let s₁ := if wfail then { s with write_errors := s.write_errors + 1 }
              else { s with writes := s.writes ++ [data] }
    .ok { s₁ with frame_count := s₁.frame_count + 1,
                  total_samples := s₁.total_samples + pyLen b }

/-- The `except` handler of `AlsaAudioDriver.play_samples`. -/
def alsaLogError (s : AlsaState) : AlsaState :=
  if s.error_printed then s
  else { s with error_printed := true, diag_count := s.diag_count + 1 }

/-- `AlsaAudioDriver.play_samples` (lines 138-230) as the `Except` it
leaves scope with. -/
def alsa_play_exc (blk : Option Samples) (fail wfail : Bool) (s : AlsaState) :
    Except Unit AlsaState :=
  if !s.running || !s.pcm then .ok s
  else match blk with
    | none => .ok s
    | some b =>
        if pyLen b = 0 then .ok s
        else match alsa_play_body b fail wfail s with
          | .ok t => .ok t
          | .error _ => .ok (alsaLogError s)

/-- The state after `AlsaAudioDriver.play_samples` returns. -/
def alsa_play (blk : Option Samples) (fail wfail : Bool) (s : AlsaState) :
    AlsaState :=
  match alsa_play_exc blk fail wfail s with
  | .ok t => t
  | .error _ => s

/-- A pygame `Sound` made by `pygame.sndarray.make_sound`: 1-D for a
mono mixer, 2-D (rows of channel values) otherwise. -/
inductive PgSound where
  | oneD : List Int → PgSound
  | twoD : List (List Int) → PgSound
  deriving Repr, DecidableEq

/-- `PygameMixerDriver` instance state; `played` and `queued` collect
the sounds handed to `channel.play` and `channel.queue`. -/
structure PygameState where
  initialized : Bool
  channel : Bool
  channels : Nat
  sample_rate : Int
  error_printed : Bool
  diag_count : Nat
  played : List PgSound
  queued : List PgSound
  deriving Repr, DecidableEq

/-- Steps 1-4 of `PygameMixerDriver.play_samples`: cast to int16 when
needed, then adapt channels — 1-D input stays 1-D for a mono mixer or
is replicated across columns otherwise; 2-D input keeps its first
column for a mono mixer, or is truncated to `min(cols, channels)`
columns and padded by repeating its first column. -/
def pygame_adapt (channels : Nat) : Samples → PgSound
  | .i16 xs =>
      if channels = 1 then .oneD xs
      else .twoD (xs.map (fun x => List.replicate channels x))
  | .i16m rows =>
      if channels = 1 then .oneD (rows.map (fun r => r.headD 0))
      else
        if min (rows.headD []).length channels < channels then
          .twoD (rows.map (fun r =>
            r.take (min (rows.headD []).length channels) ++
              List.replicate (channels - min (rows.headD []).length channels)
                (r.headD 0)))
        else .twoD (rows.map (fun r => r.take (min (rows.headD []).length channels)))
  | .f32 qs =>
      let xs := qs.map (fun q => wrap16 (ratTrunc q))
      if channels = 1 then .oneD xs
      else .twoD (xs.map (fun x => List.replicate channels x))

/-- The `try` body of `PygameMixerDriver.play_samples` (lines 115-165):
make the sound and either play it directly (`channel` idle) or queue it
(`busy` models `channel.get_busy()`). -/
def pygame_play_body (b : Samples) (busy fail : Bool) (s : PygameState) :
    Except Unit PygameState :=
  if fail then .error ()
  else if busy then .ok { s with queued := s.queued ++ [pygame_adapt s.channels b] }
  else .ok { s with played := s.played ++ [pygame_adapt s.channels b] }

/-- The `except` handler of `PygameMixerDriver.play_samples`. -/
def pygameLogError (s : PygameState) : PygameState :=
  if s.error_printed then s
  else { s with error_printed := true, diag_count := s.diag_count + 1 }

/-- `PygameMixerDriver.play_samples` (lines 96-173) as the `Except` it
leaves scope with. -/
def pygame_play_exc (blk : Option Samples) (busy fail : Bool) (s : PygameState) :
    Except Unit PygameState :=
  if !s.initialized || !s.channel then .ok s
  else match blk with
    | none => .ok s
    | some b =>
        if pyLen b = 0 then .ok s
        else match pygame_play_body b busy fail s with
          | .ok t => .ok t
          | .error _ => .ok (pygameLogError s)

/-- The state after `PygameMixerDriver.play_samples` returns. -/
def pygame_play (blk : Option Samples) (busy fail : Bool) (s : PygameState) :
    PygameState :=
  match pygame_play_exc blk busy fail s with
  | .ok t => t
  | .error _ => s

/-! ### Lifecycle and error-absorption lemmas

Each driver's `play_samples` is characterised by an explicit evaluation
equation, from which the no-propagation, frame-drop and diagnostic-bound
properties follow by case analysis. -/

/-- Evaluation equation for `PyAudioDriver.play_samples`: on every path
the call leaves scope normally (with `Except.ok`), returning either the
untouched state, the state with the converted frame pushed and the
statistics updated, or the state after the one-time error log. -/
theorem pyaudio_play_exc_eq (blk : Option Samples) (fail : Bool) (s : PyAudioState) :
    pyaudio_play_exc blk fail s = Except.ok (
      if !s.running || !s.stream then s
      else match blk with
        | none => s
        | some b =>
            if pyLen b = 0 then s
            else if fail then pyaudioLogError s
            else { s with buffer := pushFrame (pyaudioConvert b) s.buffer,
                          frame_count := s.frame_count + 1,
                          total_samples := s.total_samples + pyLen b }) := by
  unfold pyaudio_play_exc pyaudio_play_body
  split
  · rfl
  · cases blk with
    | none => rfl
    | some b =>
        dsimp only
        split
        · rfl
        · cases fail <;> rfl

theorem pyaudio_play_eq (blk : Option Samples) (fail : Bool) (s : PyAudioState) :
    pyaudio_play blk fail s =
      (if !s.running || !s.stream then s
       else match blk with
        | none => s
        | some b =>
            if pyLen b = 0 then s
            else if fail then pyaudioLogError s
            else { s with buffer := pushFrame (pyaudioConvert b) s.buffer,
                          frame_count := s.frame_count + 1,
                          total_samples := s.total_samples + pyLen b }) := by
  rw [pyaudio_play, pyaudio_play_exc_eq]

/-- Evaluation equation for `AlsaAudioDriver.play_samples`. -/
theorem alsa_play_exc_eq (blk : Option Samples) (fail wfail : Bool) (s : AlsaState) :
    alsa_play_exc blk fail wfail s = Except.ok (
      if !s.running || !s.pcm then s
      else match blk with
        | none => s
        | some b =>
            if pyLen b = 0 then s
            else if fail then alsaLogError s
            else if s.use_24bit && isTwoD b then alsaLogError s
            else if wfail then
              { s with write_errors := s.write_errors + 1,
                       frame_count := s.frame_count + 1,
                       total_samples := s.total_samples + pyLen b }
            else
              { s with writes := s.writes ++
                         [alsaData s.use_24bit (alsaFloats s.volume s.channels b)],
                       frame_count := s.frame_count + 1,
                       total_samples := s.total_samples + pyLen b }) := by
  unfold alsa_play_exc alsa_play_body
  split
  · rfl
  · cases blk with
    | none => rfl
    | some b =>
        dsimp only
        split
        · rfl
        · cases fail with
          | true => rfl
          | false =>
              cases h24 : s.use_24bit && isTwoD b with
              | true => rfl
              | false => cases wfail <;> rfl

theorem alsa_play_eq (blk : Option Samples) (fail wfail : Bool) (s : AlsaState) :
    alsa_play blk fail wfail s =
      (if !s.running || !s.pcm then s
       else match blk with
        | none => s
        | some b =>
            if pyLen b = 0 then s
            else if fail then alsaLogError s
            else if s.use_24bit && isTwoD b then alsaLogError s
            else if wfail then
              { s with write_errors := s.write_errors + 1,
                       frame_count := s.frame_count + 1,
                       total_samples := s.total_samples + pyLen b }
            else
              { s with writes := s.writes ++
                         [alsaData s.use_24bit (alsaFloats s.volume s.channels b)],
                       frame_count := s.frame_count + 1,
                       total_samples := s.total_samples + pyLen b }) := by
  rw [alsa_play, alsa_play_exc_eq]

/-- Evaluation equation for `PygameMixerDriver.play_samples`. -/
theorem pygame_play_exc_eq (blk : Option Samples) (busy fail : Bool) (s : PygameState) :
    pygame_play_exc blk busy fail s = Except.ok (
      if !s.initialized || !s.channel then s
      else match blk with
        | none => s
        | some b =>
            if pyLen b = 0 then s
            else if fail then pygameLogError s
            else if busy then
              { s with queued := s.queued ++ [pygame_adapt s.channels b] }
            else
              { s with played := s.played ++ [pygame_adapt s.channels b] }) := by
  unfold pygame_play_exc pygame_play_body
  split
  · rfl
  · cases blk with
    | none => rfl
    | some b =>
        dsimp only
        split
        · rfl
        · cases fail with
          | true => rfl
          | false => cases busy <;> rfl

theorem pygame_play_eq (blk : Option Samples) (busy fail : Bool) (s : PygameState) :
    pygame_play blk busy fail s =
      (if !s.initialized || !s.channel then s
       else match blk with
        | none => s
        | some b =>
            if pyLen b = 0 then s
            else if fail then pygameLogError s
            else if busy then
              { s with queued := s.queued ++ [pygame_adapt s.channels b] }
            else
              { s with played := s.played ++ [pygame_adapt s.channels b] }) := by
  rw [pygame_play, pygame_play_exc_eq]

/-- A failing frame is dropped: the queue is untouched. -/
theorem pyaudio_play_fail_buffer (blk : Option Samples) (s : PyAudioState) :
    (pyaudio_play blk true s).buffer = s.buffer := by
  rw [pyaudio_play_eq]
  split
  · rfl
  · cases blk with
    | none => rfl
    | some b =>
        dsimp only
        split
        · rfl
        · rw [if_pos rfl]
          unfold pyaudioLogError
          split <;> rfl

/-- A failing frame is dropped: nothing reaches the ALSA device. -/
theorem alsa_play_fail_writes (blk : Option Samples) (wfail : Bool) (s : AlsaState) :
    (alsa_play blk true wfail s).writes = s.writes := by
  rw [alsa_play_eq]
  split
  · rfl
  · cases blk with
    | none => rfl
    | some b =>
        dsimp only
        split
        · rfl
        · rw [if_pos rfl]
          unfold alsaLogError
          split <;> rfl

/-- A failing frame is dropped: nothing reaches the pygame channel. -/
theorem pygame_play_fail_sounds (blk : Option Samples) (busy : Bool) (s : PygameState) :
    (pygame_play blk busy true s).played = s.played ∧
    (pygame_play blk busy true s).queued = s.queued := by
  rw [pygame_play_eq]
  split
  · exact ⟨rfl, rfl⟩
  · cases blk with
    | none => exact ⟨rfl, rfl⟩
    | some b =>
        dsimp only
        split
        · exact ⟨rfl, rfl⟩
        · rw [if_pos rfl]
          unfold pygameLogError
          split <;> exact ⟨rfl, rfl⟩

/-- One `play_samples` call preserves the diagnostic invariant: when no
diagnostic has been printed the count is zero, and the count never
exceeds one. -/
theorem pyaudio_play_diag_step (blk : Option Samples) (fail : Bool) (s : PyAudioState)
    (h1 : s.error_printed = false → s.diag_count = 0) (h2 : s.diag_count ≤ 1) :
    ((pyaudio_play blk fail s).error_printed = false →
        (pyaudio_play blk fail s).diag_count = 0) ∧
    (pyaudio_play blk fail s).diag_count ≤ 1 := by
  rw [pyaudio_play_eq]
  split
  · exact ⟨h1, h2⟩
  · cases blk with
    | none => exact ⟨h1, h2⟩
    | some b =>
        dsimp only
        split
        · exact ⟨h1, h2⟩
        · split
          · unfold pyaudioLogError
            split
            · exact ⟨h1, h2⟩
            · rename_i hep
              simp only [Bool.not_eq_true] at hep
              have h0 := h1 hep
              exact ⟨by simp, by dsimp only; omega⟩
          · exact ⟨h1, h2⟩

/-- One ALSA `play_samples` call preserves the diagnostic invariant. -/
theorem alsa_play_diag_step (blk : Option Samples) (fail wfail : Bool) (s : AlsaState)
    (h1 : s.error_printed = false → s.diag_count = 0) (h2 : s.diag_count ≤ 1) :
    ((alsa_play blk fail wfail s).error_printed = false →
        (alsa_play blk fail wfail s).diag_count = 0) ∧
    (alsa_play blk fail wfail s).diag_count ≤ 1 := by
  rw [alsa_play_eq]
  split
  · exact ⟨h1, h2⟩
  · cases blk with
    | none => exact ⟨h1, h2⟩
    | some b =>
        dsimp only
        split
        · exact ⟨h1, h2⟩
        · split
          · unfold alsaLogError
            split
            · exact ⟨h1, h2⟩
            · rename_i hep
              simp only [Bool.not_eq_true] at hep
              have h0 := h1 hep
              exact ⟨by simp, by dsimp only; omega⟩
          · split
            · unfold alsaLogError
              split
              · exact ⟨h1, h2⟩
              · rename_i hep
                simp only [Bool.not_eq_true] at hep
                have h0 := h1 hep
                exact ⟨by simp, by dsimp only; omega⟩
            · split
              · exact ⟨h1, h2⟩
              · exact ⟨h1, h2⟩

/-- One pygame `play_samples` call preserves the diagnostic invariant. -/
theorem pygame_play_diag_step (blk : Option Samples) (busy fail : Bool) (s : PygameState)
    (h1 : s.error_printed = false → s.diag_count = 0) (h2 : s.diag_count ≤ 1) :
    ((pygame_play blk busy fail s).error_printed = false →
        (pygame_play blk busy fail s).diag_count = 0) ∧
    (pygame_play blk busy fail s).diag_count ≤ 1 := by
  rw [pygame_play_eq]
  split
  · exact ⟨h1, h2⟩
  · cases blk with
    | none => exact ⟨h1, h2⟩
    | some b =>
        dsimp only
        split
        · exact ⟨h1, h2⟩
        · split
          · unfold pygameLogError
            split
            · exact ⟨h1, h2⟩
            · rename_i hep
              simp only [Bool.not_eq_true] at hep
              have h0 := h1 hep
              exact ⟨by simp, by dsimp only; omega⟩
          · split
            · exact ⟨h1, h2⟩
            · exact ⟨h1, h2⟩

theorem pyaudio_fold_diag (calls : List (Option Samples × Bool)) (s : PyAudioState)
    (h1 : s.error_printed = false → s.diag_count = 0) (h2 : s.diag_count ≤ 1) :
    (calls.foldl (fun t c => pyaudio_play c.1 c.2 t) s).diag_count ≤ 1 := by
  induction calls generalizing s with
  | nil => simpa using h2
  | cons c rest ih =>
      obtain ⟨g1, g2⟩ := pyaudio_play_diag_step c.1 c.2 s h1 h2
      exact ih _ g1 g2

theorem alsa_fold_diag (calls : List (Option Samples × Bool × Bool)) (s : AlsaState)
    (h1 : s.error_printed = false → s.diag_count = 0) (h2 : s.diag_count ≤ 1) :
    (calls.foldl (fun t c => alsa_play c.1 c.2.1 c.2.2 t) s).diag_count ≤ 1 := by
  induction calls generalizing s with
  | nil => simpa using h2
  | cons c rest ih =>
      obtain ⟨g1, g2⟩ := alsa_play_diag_step c.1 c.2.1 c.2.2 s h1 h2
      exact ih _ g1 g2

theorem pygame_fold_diag (calls : List (Option Samples × Bool × Bool)) (s : PygameState)
    (h1 : s.error_printed = false → s.diag_count = 0) (h2 : s.diag_count ≤ 1) :
    (calls.foldl (fun t c => pygame_play c.1 c.2.1 c.2.2 t) s).diag_count ≤ 1 := by
  induction calls generalizing s with
  | nil => simpa using h2
  | cons c rest ih =>
      obtain ⟨g1, g2⟩ := pygame_play_diag_step c.1 c.2.1 c.2.2 s h1 h2
      exact ih _ g1 g2

/-- `PyAudioDriver.play_samples` leaves scope normally on every path. -/
theorem pyaudio_play_exc_ok (blk : Option Samples) (fail : Bool) (s : PyAudioState) :
    pyaudio_play_exc blk fail s = Except.ok (pyaudio_play blk fail s) := by
  rw [pyaudio_play_exc_eq, pyaudio_play_eq]

/-- `AlsaAudioDriver.play_samples` leaves scope normally on every path. -/
theorem alsa_play_exc_ok (blk : Option Samples) (fail wfail : Bool) (s : AlsaState) :
    alsa_play_exc blk fail wfail s = Except.ok (alsa_play blk fail wfail s) := by
  rw [alsa_play_exc_eq, alsa_play_eq]

/-- `PygameMixerDriver.play_samples` leaves scope normally on every path. -/
theorem pygame_play_exc_ok (blk : Option Samples) (busy fail : Bool) (s : PygameState) :
    pygame_play_exc blk busy fail s = Except.ok (pygame_play blk busy fail s) := by
  rw [pygame_play_exc_eq, pygame_play_eq]

/-! ## Claim theorems: lifecycle, error absorption, empty input -/

/-- C8: Lifecycle.  `play_samples` on a non-running driver (before a
successful `init`, or after `close`) is a silent no-op that touches
neither the queue nor the backend; `init` while already running returns
`True` with the whole state (including all effective parameters)
unchanged; `close` is idempotent, so a second `close` reproduces the
same state with no error. -/
theorem lifecycle_idempotence (s t u : PyAudioState) (blk : Option Samples)
    (fail : Bool) (rate : Int) (ok : Bool)
    (hs : s.running = false) (ht : t.running = true) :
    pyaudio_play blk fail s = s ∧
    pyaudio_init rate ok t = (true, t) ∧
    pyaudio_play blk fail (pyaudio_close u) = pyaudio_close u ∧
    pyaudio_close (pyaudio_close u) = pyaudio_close u := by
  refine ⟨?_, ?_, ?_, rfl⟩
  · rw [pyaudio_play_eq, if_pos (by rw [hs]; rfl)]
  · rw [pyaudio_init, if_pos ht]
  · rw [pyaudio_play_eq]
    exact if_pos rfl

theorem lifecycle_idempotence_witness :
    (PyAudioState.mk false false false 0 [] 0 0 0 false 0).running = false ∧
    (PyAudioState.mk true true true 48000 [[1]] 0 3 7 false 0).running = true ∧
    (pyaudio_play none false (PyAudioState.mk false false false 0 [] 0 0 0 false 0)
       = PyAudioState.mk false false false 0 [] 0 0 0 false 0 ∧
     pyaudio_init 50000 true (PyAudioState.mk true true true 48000 [[1]] 0 3 7 false 0)
       = (true, PyAudioState.mk true true true 48000 [[1]] 0 3 7 false 0) ∧
     pyaudio_play none false
         (pyaudio_close (PyAudioState.mk true true true 48000 [[1]] 0 3 7 false 0))
       = pyaudio_close (PyAudioState.mk true true true 48000 [[1]] 0 3 7 false 0) ∧
     pyaudio_close
         (pyaudio_close (PyAudioState.mk true true true 48000 [[1]] 0 3 7 false 0))
       = pyaudio_close (PyAudioState.mk true true true 48000 [[1]] 0 3 7 false 0)) :=
  ⟨rfl, rfl,
   lifecycle_idempotence (PyAudioState.mk false false false 0 [] 0 0 0 false 0)
     (PyAudioState.mk true true true 48000 [[1]] 0 3 7 false 0)
     (PyAudioState.mk true true true 48000 [[1]] 0 3 7 false 0)
     none false 50000 true rfl rfl⟩

/-- C9: No propagation of per-frame errors.  With the input restricted
to `None` or a well-formed sample array, each driver's `play_samples`
leaves scope with `Except.ok` on every path — a raise anywhere inside
the `try` body (the `fail`/`wfail` injections) is absorbed; the failing
frame is dropped with the queue and sink untouched; and starting from a
fresh instance, any sequence of calls prints at most one diagnostic. -/
theorem error_absorption (blk : Option Samples) (fail wfail busy : Bool)
    (p : PyAudioState) (a : AlsaState) (g : PygameState)
    (callsP : List (Option Samples × Bool))
    (callsA callsG : List (Option Samples × Bool × Bool))
    (_hp1 : p.error_printed = false) (hp2 : p.diag_count = 0)
    (_ha1 : a.error_printed = false) (ha2 : a.diag_count = 0)
    (_hg1 : g.error_printed = false) (hg2 : g.diag_count = 0) :
    pyaudio_play_exc blk fail p = Except.ok (pyaudio_play blk fail p) ∧
    alsa_play_exc blk fail wfail a = Except.ok (alsa_play blk fail wfail a) ∧
    pygame_play_exc blk busy fail g = Except.ok (pygame_play blk busy fail g) ∧
    (pyaudio_play blk true p).buffer = p.buffer ∧
    (alsa_play blk true wfail a).writes = a.writes ∧
    (pygame_play blk busy true g).played = g.played ∧
    (pygame_play blk busy true g).queued = g.queued ∧
    (callsP.foldl (fun t c => pyaudio_play c.1 c.2 t) p).diag_count ≤ 1 ∧
    (callsA.foldl (fun t c => alsa_play c.1 c.2.1 c.2.2 t) a).diag_count ≤ 1 ∧
    (callsG.foldl (fun t c => pygame_play c.1 c.2.1 c.2.2 t) g).diag_count ≤ 1 := by
  obtain ⟨g1, g2⟩ := pygame_play_fail_sounds blk busy g
  exact ⟨pyaudio_play_exc_ok blk fail p, alsa_play_exc_ok blk fail wfail a,
    pygame_play_exc_ok blk busy fail g, pyaudio_play_fail_buffer blk p,
    alsa_play_fail_writes blk wfail a, g1, g2,
    pyaudio_fold_diag callsP p (fun _ => hp2) (by omega),
    alsa_fold_diag callsA a (fun _ => ha2) (by omega),
    pygame_fold_diag callsG g (fun _ => hg2) (by omega)⟩

theorem error_absorption_witness :
    (PyAudioState.mk true true true 48000 [] 0 0 0 false 0).error_printed = false ∧
    (PyAudioState.mk true true true 48000 [] 0 0 0 false 0).diag_count = 0 ∧
    (AlsaState.mk true true (3/10) 2 true 48000 0 0 0 false 0 []).error_printed
      = false ∧
    (AlsaState.mk true true (3/10) 2 true 48000 0 0 0 false 0 []).diag_count = 0 ∧
    (PygameState.mk true true 2 48000 false 0 [] []).error_printed = false ∧
    (PygameState.mk true true 2 48000 false 0 [] []).diag_count = 0 ∧
    (pyaudio_play_exc (some (Samples.i16 [5])) true
         (PyAudioState.mk true true true 48000 [] 0 0 0 false 0)
       = Except.ok (pyaudio_play (some (Samples.i16 [5])) true
           (PyAudioState.mk true true true 48000 [] 0 0 0 false 0)) ∧
     alsa_play_exc (some (Samples.i16 [5])) true false
         (AlsaState.mk true true (3/10) 2 true 48000 0 0 0 false 0 [])
       = Except.ok (alsa_play (some (Samples.i16 [5])) true false
           (AlsaState.mk true true (3/10) 2 true 48000 0 0 0 false 0 [])) ∧
     pygame_play_exc (some (Samples.i16 [5])) false true
         (PygameState.mk true true 2 48000 false 0 [] [])
       = Except.ok (pygame_play (some (Samples.i16 [5])) false true
           (PygameState.mk true true 2 48000 false 0 [] [])) ∧
     (pyaudio_play (some (Samples.i16 [5])) true
         (PyAudioState.mk true true true 48000 [] 0 0 0 false 0)).buffer
       = (PyAudioState.mk true true true 48000 [] 0 0 0 false 0).buffer ∧
     (alsa_play (some (Samples.i16 [5])) true false
         (AlsaState.mk true true (3/10) 2 true 48000 0 0 0 false 0 [])).writes
       = (AlsaState.mk true true (3/10) 2 true 48000 0 0 0 false 0 []).writes ∧
     (pygame_play (some (Samples.i16 [5])) false true
         (PygameState.mk true true 2 48000 false 0 [] [])).played
       = (PygameState.mk true true 2 48000 false 0 [] []).played ∧
     (pygame_play (some (Samples.i16 [5])) false true
         (PygameState.mk true true 2 48000 false 0 [] [])).queued
       = (PygameState.mk true true 2 48000 false 0 [] []).queued ∧
     (([(some (Samples.i16 [5]), true), (some (Samples.i16 [6]), true)]).foldl
         (fun t c => pyaudio_play c.1 c.2 t)
         (PyAudioState.mk true true true 48000 [] 0 0 0 false 0)).diag_count ≤ 1 ∧
     (([(some (Samples.i16 [5]), true, false), (some (Samples.i16 [6]), true, true)]).foldl
         (fun t c => alsa_play c.1 c.2.1 c.2.2 t)
         (AlsaState.mk true true (3/10) 2 true 48000 0 0 0 false 0 [])).diag_count
       ≤ 1 ∧
     (([(some (Samples.i16 [5]), false, true), (some (Samples.i16 [6]), true, true)]).foldl
         (fun t c => pygame_play c.1 c.2.1 c.2.2 t)
         (PygameState.mk true true 2 48000 false 0 [] [])).diag_count ≤ 1) :=
  ⟨rfl, rfl, rfl, rfl, rfl, rfl,
   error_absorption (some (Samples.i16 [5])) true false false
     (PyAudioState.mk true true true 48000 [] 0 0 0 false 0)
     (AlsaState.mk true true (3/10) 2 true 48000 0 0 0 false 0 [])
     (PygameState.mk true true 2 48000 false 0 [] [])
     [(some (Samples.i16 [5]), true), (some (Samples.i16 [6]), true)]
     [(some (Samples.i16 [5]), true, false), (some (Samples.i16 [6]), true, true)]
     [(some (Samples.i16 [5]), false, true), (some (Samples.i16 [6]), true, true)]
     rfl rfl rfl rfl rfl rfl⟩

/-- C10: Empty-input no-op.  In every driver, `play_samples` called
with `None` or with a zero-length sample array returns with the whole
driver state unchanged — queue, statistics counters, backend handles —
and nothing handed to the sink (the `writes`/`played`/`queued` logs are
part of the state equality). -/
theorem empty_input_noop (p : PyAudioState) (a : AlsaState) (g : PygameState)
    (fail wfail busy : Bool) (b : Samples) (hb : pyLen b = 0) :
    pyaudio_play none fail p = p ∧
    pyaudio_play (some b) fail p = p ∧
    alsa_play none fail wfail a = a ∧
    alsa_play (some b) fail wfail a = a ∧
    pygame_play none busy fail g = g ∧
    pygame_play (some b) busy fail g = g := by
  refine ⟨?_, ?_, ?_, ?_, ?_, ?_⟩
  · rw [pyaudio_play_eq]; split <;> rfl
  · rw [pyaudio_play_eq]
    split
    · rfl
    · dsimp only
      rw [if_pos hb]
  · rw [alsa_play_eq]; split <;> rfl
  · rw [alsa_play_eq]
    split
    · rfl
    · dsimp only
      rw [if_pos hb]
  · rw [pygame_play_eq]; split <;> rfl
  · rw [pygame_play_eq]
    split
    · rfl
    · dsimp only
      rw [if_pos hb]

theorem empty_input_noop_witness :
    pyLen (Samples.i16 []) = 0 ∧
    (pyaudio_play none false (PyAudioState.mk true true true 48000 [[1]] 2 3 7 false 0)
       = PyAudioState.mk true true true 48000 [[1]] 2 3 7 false 0 ∧
     pyaudio_play (some (Samples.i16 [])) false
         (PyAudioState.mk true true true 48000 [[1]] 2 3 7 false 0)
       = PyAudioState.mk true true true 48000 [[1]] 2 3 7 false 0 ∧
     alsa_play none false true
         (AlsaState.mk true true 1 2 false 48000 1 2 3 false 0 [[4, 5]])
       = AlsaState.mk true true 1 2 false 48000 1 2 3 false 0 [[4, 5]] ∧
     alsa_play (some (Samples.i16 [])) false true
         (AlsaState.mk true true 1 2 false 48000 1 2 3 false 0 [[4, 5]])
       = AlsaState.mk true true 1 2 false 48000 1 2 3 false 0 [[4, 5]] ∧
     pygame_play none true false
         (PygameState.mk true true 2 48000 false 0 [] [PgSound.oneD [1]])
       = PygameState.mk true true 2 48000 false 0 [] [PgSound.oneD [1]] ∧
     pygame_play (some (Samples.i16 [])) true false
         (PygameState.mk true true 2 48000 false 0 [] [PgSound.oneD [1]])
       = PygameState.mk true true 2 48000 false 0 [] [PgSound.oneD [1]]) :=
  ⟨rfl,
   empty_input_noop (PyAudioState.mk true true true 48000 [[1]] 2 3 7 false 0)
     (AlsaState.mk true true 1 2 false 48000 1 2 3 false 0 [[4, 5]])
     (PygameState.mk true true 2 48000 false 0 [] [PgSound.oneD [1]])
     false true true (Samples.i16 []) rfl⟩

end PyArduboy
